import Mathlib

/-!
Verification of the X-CTF platform's sandbox lifecycle and firewall control
plane, shallowly embedded from the Python sources.

The nftables table owned by `services/firewall_service.py` is modelled as an
abstract state: the two port sets (`static_ports`, `sandbox_ports`), the
`(port, ip) -> accept` map (`sandbox_port_to_ip`), and the per-process
`_initialized` flag.  The nft CLI's element operations are deterministic:
adding an element that is already present fails and leaves the state
unchanged (interval sets report an overlap, plain maps report that the
element exists), deleting an absent element fails and leaves the state
unchanged.  Whether such a failure is fatal to the surrounding Python method
follows each call's `check` flag in the source.
-/

namespace XCTF

/-- Values stored in a sandbox's `port_mappings` JSON object: the source
stores a mix of ints and strings, and other JSON values are possible. -/
inductive PortVal
  | pInt (n : Int)
  | pStr (s : String)
  | pOther
deriving DecidableEq, Repr

/-- Python's `isinstance(port, (int, str))` guard followed by `int(port)`
with `ValueError`/`TypeError` skipped: ints pass through, strings are
parsed as decimal integers, anything else is skipped. -/
def PortVal.toIntCoerce : PortVal → Option Int
  | .pInt n => some n
  | .pStr s => s.toInt?
  | .pOther => none

/-- Python truthiness of an optional list (`if challenge.tcp_ports:` /
`if sandbox.port_mappings:`): `None` and the empty collection are falsy. -/
def listTruthy {α : Type} : Option (List α) → Bool
  | none => false
  | some l => !l.isEmpty

/-- Python truthiness of an optional integer id (`if user_id:`):
`None` and `0` are falsy. -/
def optIdTruthy : Option Nat → Bool
  | none => false
  | some n => n != 0

/-- The values of a `port_mappings` dict that survive the
`isinstance`/`int()` coercion loop, in iteration order; the loop body is
skipped entirely when the dict is falsy. -/
def portValInts (pm : Option (List (String × PortVal))) : List Int :=
  if listTruthy pm then
    (pm.getD []).filterMap (fun kv => kv.2.toIntCoerce)
  else []

/-! ## Firewall state (`services/firewall_service.py`) -/

/-- Abstract state of the `xctf` nftables table together with the
`FirewallService._initialized` process flag. -/
structure FirewallState where
  initialized : Bool
  static_ports : Finset Int
  sandbox_ports : Finset Int
  port_to_ip : Finset (Int × String)
deriving DecidableEq

/-- `nft add element` on a set: fails when the element is already present
(interval sets without auto-merge reject overlapping elements). -/
def addElem (s : Finset Int) (p : Int) : Finset Int × Bool :=
  if p ∈ s then (s, false) else (insert p s, true)

/-- `nft delete element` on a set: fails ("not found") when absent. -/
def delElem (s : Finset Int) (p : Int) : Finset Int × Bool :=
  if p ∈ s then (s.erase p, true) else (s, false)

/-- `nft add element` on the `sandbox_port_to_ip` map. -/
def addMapElem (m : Finset (Int × String)) (p : Int) (ip : String) :
    Finset (Int × String) × Bool :=
  if (p, ip) ∈ m then (m, false) else (insert (p, ip) m, true)

/-- `nft delete element` on the `sandbox_port_to_ip` map. -/
def delMapElem (m : Finset (Int × String)) (p : Int) (ip : String) :
    Finset (Int × String) × Bool :=
  if (p, ip) ∈ m then (m.erase (p, ip), true) else (m, false)

/-- `FirewallService.initialize_firewall`: probes for the `xctf` table and
creates it (with empty sets) only when absent.  The abstract state tracks
the host table, which persists across processes, so initialization only
flips the process flag. -/
def initialize_firewall (st : FirewallState) : FirewallState :=
  if st.initialized then st else { st with initialized := true }

/-- `FirewallService.add_port_ip_mapping`: inserts the port into
`sandbox_ports` with `check=False` (failure logged, tolerated), then the
`(port, ip) : accept` element into the map with `check=True` (failure
raises, caught by the method's own handler, and surfaces as `False`). -/
def add_port_ip_mapping (st : FirewallState) (port : Int) (ip : String) :
    FirewallState × Bool :=
  let st0 := if st.initialized then st else initialize_firewall st
  let st1 := { st0 with sandbox_ports := (addElem st0.sandbox_ports port).1 }
  match addMapElem st1.port_to_ip port ip with
  | (m, true) => ({ st1 with port_to_ip := m }, true)
  | (_, false) => (st1, false)

/-- `FirewallService.remove_port_ip_mapping`: refuses when uninitialized;
otherwise deletes the map element with `check=False` and reports success. -/
def remove_port_ip_mapping (st : FirewallState) (port : Int) (ip : String) :
    FirewallState × Bool :=
  if !st.initialized then (st, false)
  else ({ st with port_to_ip := (delMapElem st.port_to_ip port ip).1 }, true)

/-- `FirewallService.add_static_port`: initializes if needed, then adds the
port to `static_ports` with `check=True` (a duplicate raises, is caught,
and surfaces as `False`). -/
def add_static_port (st : FirewallState) (port : Int) : FirewallState × Bool :=
  let st0 := if st.initialized then st else initialize_firewall st
  match addElem st0.static_ports port with
  | (s, true) => ({ st0 with static_ports := s }, true)
  | (_, false) => (st0, false)

/-- `FirewallService.remove_static_port`. -/
def remove_static_port (st : FirewallState) (port : Int) :
    FirewallState × Bool :=
  if !st.initialized then (st, false)
  else ({ st with static_ports := (delElem st.static_ports port).1 }, true)

/-- `FirewallService.remove_sandbox_port`. -/
def remove_sandbox_port (st : FirewallState) (port : Int) :
    FirewallState × Bool :=
  if !st.initialized then (st, false)
  else ({ st with sandbox_ports := (delElem st.sandbox_ports port).1 }, true)

/-- `FirewallService.remove_all_ports_for_ip`: after the initialization
guard the body only logs; no nft command is issued. -/
def remove_all_ports_for_ip (st : FirewallState) (_ip : String) :
    FirewallState × Bool :=
  if !st.initialized then (st, false) else (st, true)

/-- The `ports_to_clean` list built by
`FirewallService.remove_all_port_mappings_for_sandbox`: the primary port
followed by every int-coercible `port_mappings` value not already listed. -/
def ports_to_clean (sandbox_port : Int)
    (pm : Option (List (String × PortVal))) : List Int :=
  if listTruthy pm then
    (pm.getD []).foldl (fun acc kv =>
      match kv.2.toIntCoerce with
      | some p => if p ∈ acc then acc else acc ++ [p]
      | none => acc) [sandbox_port]
  else [sandbox_port]

/-- One iteration of the per-port cleanup loop shared by
`remove_all_port_mappings_for_sandbox` and `clean_orphan_ports`: delete the
port from `sandbox_ports` and from `static_ports` (both `check=False`),
then delete every `(port, ip) : accept` map element found by listing the
map. -/
def cleanPortOnce (st : FirewallState) (p : Int) : FirewallState :=
  { st with
    sandbox_ports := (delElem st.sandbox_ports p).1
    static_ports := (delElem st.static_ports p).1
    port_to_ip := st.port_to_ip.filter (fun e => e.1 ≠ p) }

/-- `FirewallService.remove_all_port_mappings_for_sandbox`. -/
def remove_all_port_mappings_for_sandbox (st : FirewallState)
    (sandbox_port : Int) (pm : Option (List (String × PortVal))) :
    FirewallState × Bool :=
  if !st.initialized then (st, false)
  else ((ports_to_clean sandbox_port pm).foldl cleanPortOnce st, true)

/-- The range filter applied while parsing the `sandbox_ports` listing in
`clean_orphan_ports`: only ports within `32768..=65535` are collected. -/
def portInSandboxRange (p : Int) : Bool :=
  32768 ≤ p && p ≤ 65535

/-- `FirewallService.clean_orphan_ports`: refuses when uninitialized; lists
`sandbox_ports`, keeps the ports within `32768..=65535`, subtracts the
active set, and runs the per-port cleanup loop on each orphan. -/
def clean_orphan_ports (st : FirewallState) (active : Finset Int) :
    FirewallState × Bool :=
  if !st.initialized then (st, false)
  else
    let current := st.sandbox_ports.filter (fun p => portInSandboxRange p)
    let orphans := current \ active
    ((orphans.sort (· ≤ ·)).foldl cleanPortOnce st, true)

/-! ## Requested container ports (`ChallengeService._create_sandbox`) -/

/-- The keys of the `challenge_ports` dict passed to
`DockerService.create_container`: the source starts from
`{"8000/tcp": None}` and, when `challenge.tcp_ports` is truthy, rebinds the
whole dict to `{f"{port}/tcp": None for port in challenge.tcp_ports}`. -/
def challenge_ports (tcp_ports : Option (List Int)) : List String :=
  if listTruthy tcp_ports then
    (tcp_ports.getD []).map (fun p => s!"{p}/tcp")
  else ["8000/tcp"]

/-! ## Data model (`challenge/models.py`, `user_auth/models.py`) -/

/-- Row of the `challenge` table (fields the core reads). -/
structure ChallengeRec where
  id : Nat
  name : String
  flag : String
  active : Bool
  static : Bool
  tcp_ports : Option (List Int)
deriving DecidableEq

/-- Row of the `submission` table. -/
structure SubmissionRec where
  user_id : Nat
  challenge_id : Nat
  correct : Bool
deriving DecidableEq

/-- Row of the `sandbox` table. -/
structure SandboxRec where
  id : Nat
  container_id : String
  container_port : Int
  challenge_id : Nat
  user_id : Option Nat
  port_mappings : Option (List (String × PortVal))
  active : Bool
  destroyed_at : Option Nat
deriving DecidableEq

/-- Row of the `user_session` table. -/
structure SessionRec where
  id : Nat
  user_id : Nat
  ip_address : String
  active : Bool
  expires_at : Nat
deriving DecidableEq

/-- `sandbox.challenge.static` resolved through the challenge table. -/
def challenge_static (challenges : List ChallengeRec) (cid : Nat) : Bool :=
  match challenges.find? (fun c => c.id == cid) with
  | some c => c.static
  | none => false

/-- The host ports a sandbox publishes, as the cleanup and login loops
enumerate them: the primary `container_port` first, then every
int-coercible `port_mappings` value. -/
def sandboxPorts (sb : SandboxRec) : List Int :=
  sb.container_port :: portValInts sb.port_mappings

/-! ## Flag submission (`ChallengeService.submit_flag`) -/

/-- Database state read and written by `submit_flag`. -/
structure SubmitDb where
  challenges : List ChallengeRec
  submissions : List SubmissionRec
deriving DecidableEq

/-- Python's `str.strip()` with no argument: drop leading and trailing
whitespace, modelled on the string's character list. -/
def pyStrip (s : String) : String :=
  ⟨((s.data.dropWhile Char.isWhitespace).reverse.dropWhile
      Char.isWhitespace).reverse⟩

/-- `ChallengeService.submit_flag`: look up the challenge, gate on a prior
correct submission, compare the stripped flags, record a `Submission`, and
return the user-visible verdict. -/
def submit_flag (db : SubmitDb) (user_id challenge_id : Nat) (flag : String) :
    SubmitDb × Bool × String :=
  match db.challenges.find? (fun c => c.id == challenge_id) with
  | none => (db, false, "Challenge not found")
  | some challenge =>
    if db.submissions.any (fun s =>
        s.user_id == user_id && s.challenge_id == challenge_id && s.correct) then
      (db, false, "You have already solved this challenge.")
    else
      let is_correct := pyStrip flag == pyStrip challenge.flag
      let db' := { db with submissions :=
        db.submissions ++ [⟨user_id, challenge_id, is_correct⟩] }
      if is_correct then (db', true, "correct flag")
      else (db', false, "incorrect flag")

/-! ## Volume paths (`challenge/utils.py`) -/

/-- Path of the per-sandbox loopback image file, as `clean_up_volume`
derives it (Python's `if user_id:` treats `None` and `0` as falsy). -/
def volume_file_path (challenge_id : Nat) (user_id : Option Nat) : String :=
  if optIdTruthy user_id then
    s!"/tmp/xctf_volumes/challenge_{challenge_id}_{user_id.getD 0}_container.img"
  else
    s!"/tmp/xctf_volumes/challenge_{challenge_id}_container.img"

/-- Path of the per-sandbox mount point. -/
def mount_point_path (challenge_id : Nat) (user_id : Option Nat) : String :=
  if optIdTruthy user_id then
    s!"/tmp/xctf_volumes/challenge_{challenge_id}_{user_id.getD 0}_container"
  else
    s!"/tmp/xctf_volumes/challenge_{challenge_id}_container"

/-- `clean_up_volume`: unmount (external), delete the image file if it
exists, delete the mount-point directory if it exists; failures are logged
and swallowed.  The filesystem is the set of existing paths. -/
def clean_up_volume (files : Finset String) (challenge_id : Nat)
    (user_id : Option Nat) : Finset String :=
  (files.erase (volume_file_path challenge_id user_id)).erase
    (mount_point_path challenge_id user_id)

/-! ## Sandbox cleanup task (`tasks/tasks.py cleanup_sandbox`) -/

/-- Combined state the cleanup task touches: the firewall, the sandbox
table, and the volume filesystem. -/
structure WorldState where
  fw : FirewallState
  sandboxes : List SandboxRec
  files : Finset String
deriving DecidableEq

/-- `cleanup_sandbox(sandbox_id)`: read the sandbox (tolerating a missing
row), remove its firewall rules (best-effort), stop and remove its
container (external, best-effort), flip the row to `active=False` with
`destroyed_at=now`, and clean up the volume. -/
def cleanup_sandbox (w : WorldState) (sandbox_id : Nat) (now : Nat) :
    WorldState :=
  match w.sandboxes.find? (fun s => s.id == sandbox_id) with
  | none => w
  | some sb =>
    let fw := (remove_all_port_mappings_for_sandbox w.fw
      sb.container_port sb.port_mappings).1
    let sandboxes := w.sandboxes.map (fun s =>
      if s.id == sandbox_id then
        { s with active := false, destroyed_at := some now }
      else s)
    let files := clean_up_volume w.files sb.challenge_id sb.user_id
    { fw := fw, sandboxes := sandboxes, files := files }

/-! ## Login (`user_auth/views.py login_view`, post-credential part) -/

/-- State the login handler touches. -/
structure AuthState where
  sessions : List SessionRec
  sandboxes : List SandboxRec
  challenges : List ChallengeRec
  fw : FirewallState
deriving DecidableEq

/-- Firewall handoff for one sandbox at login: skip static challenges,
otherwise remove the old-IP accepts for the primary port and every
int-coercible mapping value. -/
def loginRemoveOld (challenges : List ChallengeRec) (oldIp : String)
    (f : FirewallState) (sb : SandboxRec) : FirewallState :=
  if challenge_static challenges sb.challenge_id then f
  else
    let f := (remove_port_ip_mapping f sb.container_port oldIp).1
    (portValInts sb.port_mappings).foldl
      (fun f p => (remove_port_ip_mapping f p oldIp).1) f

/-- Firewall handoff for one sandbox at login: skip static challenges,
otherwise add the new-IP accepts for the primary port and every
int-coercible mapping value. -/
def loginAddNew (challenges : List ChallengeRec) (clientIp : String)
    (f : FirewallState) (sb : SandboxRec) : FirewallState :=
  if challenge_static challenges sb.challenge_id then f
  else
    let f := (add_port_ip_mapping f sb.container_port clientIp).1
    (portValInts sb.port_mappings).foldl
      (fun f p => (add_port_ip_mapping f p clientIp).1) f

/-- `login_view` after the credential checks: read the first active session
(`old_ip`), atomically deactivate every active session of the user and
insert the fresh 24 h session, initialize the firewall, and for every
active sandbox of the user move the accepts from `old_ip` (when truthy and
different) to the client IP. -/
def login_session_and_firewall (st : AuthState) (user_id : Nat)
    (client_ip : String) (new_session_id : Nat) (now : Nat) : AuthState :=
  let existing := st.sessions.find? (fun s => s.user_id == user_id && s.active)
  let old_ip := existing.map (fun s => s.ip_address)
  let sessions := st.sessions.map (fun s =>
    if s.user_id == user_id && s.active then { s with active := false } else s)
  let sessions := sessions ++
    [⟨new_session_id, user_id, client_ip, true, now + 86400⟩]
  let fw := initialize_firewall st.fw
  let user_sandboxes := st.sandboxes.filter (fun sb =>
    sb.user_id == some user_id && sb.active)
  let fw :=
    match old_ip with
    | some oldIp =>
      if oldIp != "" && oldIp != client_ip then
        user_sandboxes.foldl (loginRemoveOld st.challenges oldIp) fw
      else fw
    | none => fw
  let fw := user_sandboxes.foldl (loginAddNew st.challenges client_ip) fw
  { st with sessions := sessions, fw := fw }

/-! ## Middleware IP-mismatch path
(`user_auth/middleware_security.py UserStatusMiddleware.process_request`) -/

/-- What the middleware returns for the request. -/
inductive MwOutcome
  | proceed
  | redirectHome
  | redirectLogin
deriving DecidableEq

/-- Authenticated user fields the middleware reads. -/
structure UserRec where
  id : Nat
  banned : Bool
  is_admin : Bool
deriving DecidableEq

/-- The firewall removals the mismatch path attempts for the old IP, over
the user's active sandboxes (static challenges skipped). -/
def mwRemoveOldRules (st : AuthState) (user_id : Nat) (oldIp : String) :
    FirewallState :=
  let fw := initialize_firewall st.fw
  (st.sandboxes.filter (fun sb =>
      sb.user_id == some user_id && sb.active)).foldl
    (loginRemoveOld st.challenges oldIp) fw

/-- `UserStatusMiddleware.process_request` for an authenticated user.
`fw_raises` injects an exception out of the firewall block of the
IP-mismatch path; the `except` handler still deactivates the old session
before the user is logged out and redirected. -/
def process_request (st : AuthState) (user : UserRec) (client_ip : String)
    (fw_raises : Bool) : AuthState × MwOutcome :=
  if user.banned then (st, .redirectHome)
  else if user.is_admin then (st, .proceed)
  else
    let has_active_session := st.sessions.any (fun s =>
      s.user_id == user.id && s.ip_address == client_ip && s.active)
    if has_active_session then (st, .proceed)
    else
      match st.sessions.find? (fun s => s.user_id == user.id && s.active) with
      | none => (st, .redirectLogin)
      | some old_session =>
        let fw :=
          if fw_raises then st.fw
          else mwRemoveOldRules st user.id old_session.ip_address
        let sessions := st.sessions.map (fun s =>
          if s.id == old_session.id then { s with active := false } else s)
        ({ st with sessions := sessions, fw := fw }, .redirectLogin)

/-! ## Concurrent get-or-create (`ChallengeService.get_or_create_sandbox`)

Interleaving semantics for `N` workers running `get_or_create_sandbox` on
the same `(challenge, user)` key.  Each worker executes: query for an
active row (return it if found); `acquire_lock` (on failure return
`None`); re-query under the lock (return the row another worker created);
`_create_sandbox` (insert the row); `release_lock` in the `finally` block.
Each database or lock access is one atomic step; the Redis lock is held
until released (its 10 s TTL, a real-time escape hatch, is not modelled),
and `_create_sandbox` is modelled as succeeding. -/

/-- Program counter / result of one worker in `get_or_create_sandbox`. -/
inductive WStatus
  | start
  | locking
  | checking
  | creating
  | releasing (r : Nat)
  | done (res : Option Nat)
deriving DecidableEq, Repr

/-- Global state: the named lock's holder, the ids of active sandbox rows
for the key in creation order, the next row id, and each worker's
status. -/
structure CState (n : Nat) where
  lock : Option (Fin n)
  rows : List Nat
  nextId : Nat
  workers : Fin n → WStatus

/-- One atomic step of the interleaved execution. -/
inductive CStep {n : Nat} : CState n → CState n → Prop
  | check1_found (s : CState n) (w : Fin n) (r : Nat)
      (hw : s.workers w = .start) (hr : s.rows.head? = some r) :
      CStep s ⟨s.lock, s.rows, s.nextId,
        Function.update s.workers w (.done (some r))⟩
  | check1_empty (s : CState n) (w : Fin n)
      (hw : s.workers w = .start) (hr : s.rows = []) :
      CStep s ⟨s.lock, s.rows, s.nextId, Function.update s.workers w .locking⟩
  | lock_acquire (s : CState n) (w : Fin n)
      (hw : s.workers w = .locking) (hl : s.lock = none) :
      CStep s ⟨some w, s.rows, s.nextId,
        Function.update s.workers w .checking⟩
  | lock_giveup (s : CState n) (w w' : Fin n)
      (hw : s.workers w = .locking) (hl : s.lock = some w') (hne : w' ≠ w) :
      CStep s ⟨s.lock, s.rows, s.nextId,
        Function.update s.workers w (.done none)⟩
  | check2_found (s : CState n) (w : Fin n) (r : Nat)
      (hw : s.workers w = .checking) (hr : s.rows.head? = some r) :
      CStep s ⟨s.lock, s.rows, s.nextId,
        Function.update s.workers w (.releasing r)⟩
  | check2_empty (s : CState n) (w : Fin n)
      (hw : s.workers w = .checking) (hr : s.rows = []) :
      CStep s ⟨s.lock, s.rows, s.nextId, Function.update s.workers w .creating⟩
  | create (s : CState n) (w : Fin n)
      (hw : s.workers w = .creating) :
      CStep s ⟨s.lock, s.rows ++ [s.nextId], s.nextId + 1,
        Function.update s.workers w (.releasing s.nextId)⟩
  | release (s : CState n) (w : Fin n) (r : Nat)
      (hw : s.workers w = .releasing r) :
      CStep s ⟨none, s.rows, s.nextId,
        Function.update s.workers w (.done (some r))⟩

/-- Initial state: no active row, lock free, all workers at the first
query. -/
def initCState (n : Nat) : CState n :=
  { lock := none, rows := [], nextId := 0, workers := fun _ => .start }

/-- Worker statuses that are only reachable while holding the lock. -/
def holdsLock : WStatus → Bool
  | .checking => true
  | .creating => true
  | .releasing _ => true
  | _ => false

/-- Inductive invariant of the interleaved execution. -/
structure CInv {n : Nat} (s : CState n) : Prop where
  lock_of_active : ∀ w, holdsLock (s.workers w) → s.lock = some w
  active_of_lock : ∀ w, s.lock = some w → holdsLock (s.workers w)
  rows_nil_of_creating : ∀ w, s.workers w = .creating → s.rows = []
  rows_len : s.rows.length ≤ 1
  res_mem : ∀ w r, s.workers w = .done (some r) ∨ s.workers w = .releasing r →
    r ∈ s.rows
  giveup_ok : (∃ w, s.workers w = .done none) → s.lock ≠ none ∨ s.rows ≠ []

/-! Concrete one-worker run used to witness the concurrency theorem. -/

/-- State after the single worker's first (empty) query. -/
def c1S1 : CState 1 :=
  ⟨(initCState 1).lock, (initCState 1).rows, (initCState 1).nextId,
    Function.update (initCState 1).workers 0 .locking⟩

/-- State after the worker acquires the lock. -/
def c1S2 : CState 1 :=
  ⟨some 0, c1S1.rows, c1S1.nextId, Function.update c1S1.workers 0 .checking⟩

/-- State after the second (empty) query under the lock. -/
def c1S3 : CState 1 :=
  ⟨c1S2.lock, c1S2.rows, c1S2.nextId, Function.update c1S2.workers 0 .creating⟩

/-- State after the sandbox row is inserted. -/
def c1S4 : CState 1 :=
  ⟨c1S3.lock, c1S3.rows ++ [c1S3.nextId], c1S3.nextId + 1,
    Function.update c1S3.workers 0 (.releasing c1S3.nextId)⟩

/-- Terminal state after the lock is released. -/
def c1Final : CState 1 :=
  ⟨none, c1S4.rows, c1S4.nextId, Function.update c1S4.workers 0 (.done (some 0))⟩

/-! ## Concrete states used in counterexamples and witnesses -/

/-- Initialized firewall whose map already holds the `(32768, 1.2.3.4)`
accept element. -/
def fwMapDup : FirewallState := ⟨true, ∅, ∅, {((32768 : Int), "1.2.3.4")}⟩

/-- Initialized firewall whose `sandbox_ports` already holds 32768. -/
def fwSetDup : FirewallState := ⟨true, ∅, ({32768} : Finset Int), ∅⟩

/-- Initialized firewall with a sandbox port below the 32768-65535 range. -/
def fwLowPort : FirewallState := ⟨true, ∅, ({8000} : Finset Int), ∅⟩

/-- Initialized firewall consistent with SB-4/FW-1: the port is in range
and the map key's port is in `sandbox_ports`. -/
def fwConsistent : FirewallState :=
  ⟨true, ∅, ({32768} : Finset Int), {((32768 : Int), "1.2.3.4")}⟩

/-- Empty initialized firewall. -/
def fwEmptyInit : FirewallState := ⟨true, ∅, ∅, ∅⟩

/-- Sandbox row 1 published on host port 32768, challenge 7, user 3. -/
def sbOne : SandboxRec := ⟨1, "c1", 32768, 7, some 3, none, true, none⟩

/-- World whose in-process firewall service is uninitialized while the
host's nft table still holds rules for sbOne's port. -/
def worldUninit : WorldState :=
  ⟨⟨false, ∅, ({32768} : Finset Int), {((32768 : Int), "1.2.3.4")}⟩, [sbOne], ∅⟩

/-- Same sandbox with the firewall service initialized and the volume
image file present. -/
def worldInit : WorldState :=
  ⟨fwConsistent, [sbOne], {volume_file_path 7 (some 3)}⟩

/-- A non-static challenge row. -/
def chalNonStatic : ChallengeRec := ⟨7, "web", "FLAG{x}", true, false, none⟩

/-- User 5's prior session from 10.0.0.1. -/
def sessOld : SessionRec := ⟨1, 5, "10.0.0.1", true, 1000⟩

/-- User 5's active sandbox on the non-static challenge. -/
def sbUser5 : SandboxRec := ⟨2, "c2", 32768, 7, some 5, none, true, none⟩

/-- Auth state: user 5 holds one active session at 10.0.0.1 and one active
non-static sandbox on port 32768. -/
def authStart : AuthState := ⟨[sessOld], [sbUser5], [chalNonStatic], fwEmptyInit⟩

/-- The requesting user of the middleware scenario: not banned, not
admin. -/
def userFive : UserRec := ⟨5, false, false⟩

/-- Challenge "Test" with flag `FLAG{test123}`. -/
def chalTest : ChallengeRec := ⟨1, "Test", "FLAG{test123}", true, false, none⟩

/-- Submission database with no prior submissions. -/
def dbFresh : SubmitDb := ⟨[chalTest], []⟩

/-- Submission database in which user 4 already solved challenge 1. -/
def dbSolved : SubmitDb := ⟨[chalTest], [⟨4, 1, true⟩]⟩

theorem initCState_inv (n : Nat) : CInv (initCState n) := by
  refine ⟨?_, ?_, ?_, ?_, ?_, ?_⟩
  · intro w hw; simp [initCState, holdsLock] at hw
  · intro w hl; simp [initCState] at hl
  · intro w hw; simp [initCState] at hw
  · simp [initCState]
  · intro w r hw; simp [initCState] at hw
  · intro ⟨w, hw⟩; simp [initCState] at hw


theorem CInv.preserve {n : Nat} {s t : CState n} (hs : CInv s)
    (hstep : CStep s t) : CInv t := by
  cases hstep with
  | check1_found w r hw hr =>
    have hrmem : r ∈ s.rows := by
      cases hrows : s.rows with
      | nil => rw [hrows] at hr; simp at hr
      | cons a l => rw [hrows] at hr; simp at hr; simp [hr]
    refine ⟨?_, ?_, ?_, hs.rows_len, ?_, ?_⟩
    · intro v hv
      simp only [Function.update_apply] at hv
      by_cases h : v = w
      · subst h; simp [holdsLock] at hv
      · simp [h] at hv; exact hs.lock_of_active v hv
    · intro v hl
      replace hl : s.lock = some v := hl
      have hact := hs.active_of_lock v hl
      show holdsLock (Function.update s.workers w (WStatus.done (some r)) v) = true
      by_cases h : v = w
      · subst h; rw [hw] at hact; simp [holdsLock] at hact
      · rwa [Function.update_noteq h]
    · intro v hv
      simp only [Function.update_apply] at hv
      by_cases h : v = w
      · subst h; simp at hv
      · simp [h] at hv; exact hs.rows_nil_of_creating v hv
    · intro v r' hv
      simp only [Function.update_apply] at hv
      show r' ∈ s.rows
      by_cases h : v = w
      · subst h
        rcases hv with hv | hv
        · simp at hv; subst hv; exact hrmem
        · simp at hv
      · simp [h] at hv; exact hs.res_mem v r' hv
    · rintro ⟨v, hv⟩
      simp only [Function.update_apply] at hv
      by_cases h : v = w
      · subst h; simp at hv
      · simp [h] at hv; exact hs.giveup_ok ⟨v, hv⟩
  | check1_empty w hw hr =>
    refine ⟨?_, ?_, ?_, hs.rows_len, ?_, ?_⟩
    · intro v hv
      simp only [Function.update_apply] at hv
      by_cases h : v = w
      · subst h; simp [holdsLock] at hv
      · simp [h] at hv; exact hs.lock_of_active v hv
    · intro v hl
      replace hl : s.lock = some v := hl
      have hact := hs.active_of_lock v hl
      show holdsLock (Function.update s.workers w WStatus.locking v) = true
      by_cases h : v = w
      · subst h; rw [hw] at hact; simp [holdsLock] at hact
      · rwa [Function.update_noteq h]
    · intro v hv
      simp only [Function.update_apply] at hv
      by_cases h : v = w
      · subst h; simp at hv
      · simp [h] at hv; exact hs.rows_nil_of_creating v hv
    · intro v r' hv
      simp only [Function.update_apply] at hv
      show r' ∈ s.rows
      by_cases h : v = w
      · subst h
        rcases hv with hv | hv <;> simp at hv
      · simp [h] at hv; exact hs.res_mem v r' hv
    · rintro ⟨v, hv⟩
      simp only [Function.update_apply] at hv
      by_cases h : v = w
      · subst h; simp at hv
      · simp [h] at hv; exact hs.giveup_ok ⟨v, hv⟩
  | lock_acquire w hw hl =>
    refine ⟨?_, ?_, ?_, hs.rows_len, ?_, ?_⟩
    · intro v hv
      simp only [Function.update_apply] at hv
      by_cases h : v = w
      · subst h; rfl
      · simp [h] at hv
        have := hs.lock_of_active v hv
        rw [hl] at this; simp at this
    · intro v hl'
      replace hl' : some w = some v := hl'
      have hvw : w = v := Option.some_injective _ hl'
      show holdsLock (Function.update s.workers w WStatus.checking v) = true
      rw [← hvw, Function.update_same]; rfl
    · intro v hv
      simp only [Function.update_apply] at hv
      by_cases h : v = w
      · subst h; simp at hv
      · simp [h] at hv
        have := hs.lock_of_active v (by rw [hv]; rfl)
        rw [hl] at this; simp at this
    · intro v r' hv
      simp only [Function.update_apply] at hv
      show r' ∈ s.rows
      by_cases h : v = w
      · subst h
        rcases hv with hv | hv <;> simp at hv
      · simp [h] at hv; exact hs.res_mem v r' hv
    · intro _
      exact Or.inl (by simp)
  | lock_giveup w w' hw hl hne =>
    refine ⟨?_, ?_, ?_, hs.rows_len, ?_, ?_⟩
    · intro v hv
      simp only [Function.update_apply] at hv
      by_cases h : v = w
      · subst h; simp [holdsLock] at hv
      · simp [h] at hv; exact hs.lock_of_active v hv
    · intro v hl'
      replace hl' : s.lock = some v := hl'
      have hact := hs.active_of_lock v hl'
      show holdsLock (Function.update s.workers w (WStatus.done none) v) = true
      by_cases h : v = w
      · subst h; rw [hw] at hact; simp [holdsLock] at hact
      · rwa [Function.update_noteq h]
    · intro v hv
      simp only [Function.update_apply] at hv
      by_cases h : v = w
      · subst h; simp at hv
      · simp [h] at hv; exact hs.rows_nil_of_creating v hv
    · intro v r' hv
      simp only [Function.update_apply] at hv
      show r' ∈ s.rows
      by_cases h : v = w
      · subst h
        rcases hv with hv | hv <;> simp at hv
      · simp [h] at hv; exact hs.res_mem v r' hv
    · intro _
      exact Or.inl (by simp [hl])
  | check2_found w r hw hr =>
    have hrmem : r ∈ s.rows := by
      cases hrows : s.rows with
      | nil => rw [hrows] at hr; simp at hr
      | cons a l => rw [hrows] at hr; simp at hr; simp [hr]
    refine ⟨?_, ?_, ?_, hs.rows_len, ?_, ?_⟩
    · intro v hv
      simp only [Function.update_apply] at hv
      by_cases h : v = w
      · subst h
        exact hs.lock_of_active v (by rw [hw]; rfl)
      · simp [h] at hv; exact hs.lock_of_active v hv
    · intro v hl'
      replace hl' : s.lock = some v := hl'
      have hact := hs.active_of_lock v hl'
      show holdsLock (Function.update s.workers w (WStatus.releasing r) v) = true
      by_cases h : v = w
      · subst h; rw [Function.update_same]; rfl
      · rwa [Function.update_noteq h]
    · intro v hv
      simp only [Function.update_apply] at hv
      by_cases h : v = w
      · subst h; simp at hv
      · simp [h] at hv; exact hs.rows_nil_of_creating v hv
    · intro v r' hv
      simp only [Function.update_apply] at hv
      show r' ∈ s.rows
      by_cases h : v = w
      · subst h
        rcases hv with hv | hv
        · simp at hv
        · simp at hv; subst hv; exact hrmem
      · simp [h] at hv; exact hs.res_mem v r' hv
    · rintro ⟨v, hv⟩
      simp only [Function.update_apply] at hv
      by_cases h : v = w
      · subst h; simp at hv
      · simp [h] at hv; exact hs.giveup_ok ⟨v, hv⟩
  | check2_empty w hw hr =>
    refine ⟨?_, ?_, ?_, hs.rows_len, ?_, ?_⟩
    · intro v hv
      simp only [Function.update_apply] at hv
      by_cases h : v = w
      · subst h
        exact hs.lock_of_active v (by rw [hw]; rfl)
      · simp [h] at hv; exact hs.lock_of_active v hv
    · intro v hl'
      replace hl' : s.lock = some v := hl'
      have hact := hs.active_of_lock v hl'
      show holdsLock (Function.update s.workers w WStatus.creating v) = true
      by_cases h : v = w
      · subst h; rw [Function.update_same]; rfl
      · rwa [Function.update_noteq h]
    · intro v hv
      exact hr
    · intro v r' hv
      simp only [Function.update_apply] at hv
      show r' ∈ s.rows
      by_cases h : v = w
      · subst h
        rcases hv with hv | hv <;> simp at hv
      · simp [h] at hv; exact hs.res_mem v r' hv
    · rintro ⟨v, hv⟩
      simp only [Function.update_apply] at hv
      by_cases h : v = w
      · subst h; simp at hv
      · simp [h] at hv; exact hs.giveup_ok ⟨v, hv⟩
  | create w hw =>
    have hrows : s.rows = [] := hs.rows_nil_of_creating w hw
    have hlk : s.lock = some w := hs.lock_of_active w (by rw [hw]; rfl)
    refine ⟨?_, ?_, ?_, ?_, ?_, ?_⟩
    · intro v hv
      simp only [Function.update_apply] at hv
      by_cases h : v = w
      · subst h; exact hlk
      · simp [h] at hv
        have := hs.lock_of_active v hv
        rw [hlk] at this
        exact absurd (Option.some_injective _ this.symm) h
    · intro v hl'
      replace hl' : s.lock = some v := hl'
      rw [hlk] at hl'
      have hvw : w = v := Option.some_injective _ hl'
      show holdsLock (Function.update s.workers w (WStatus.releasing s.nextId) v) = true
      rw [← hvw, Function.update_same]; rfl
    · intro v hv
      simp only [Function.update_apply] at hv
      by_cases h : v = w
      · subst h; simp at hv
      · simp [h] at hv
        have := hs.lock_of_active v (by rw [hv]; rfl)
        rw [hlk] at this
        exact absurd (Option.some_injective _ this.symm) h
    · show (s.rows ++ [s.nextId]).length ≤ 1
      rw [hrows]; simp
    · intro v r' hv
      simp only [Function.update_apply] at hv
      show r' ∈ s.rows ++ [s.nextId]
      by_cases h : v = w
      · subst h
        rcases hv with hv | hv
        · simp at hv
        · simp at hv; subst hv
          exact List.mem_append.mpr (Or.inr (by simp))
      · simp [h] at hv
        exact List.mem_append.mpr (Or.inl (hs.res_mem v r' hv))
    · intro _
      exact Or.inr (by simp)
  | release w r hw =>
    have hrmem : r ∈ s.rows := hs.res_mem w r (Or.inr hw)
    have hlk : s.lock = some w := hs.lock_of_active w (by rw [hw]; rfl)
    refine ⟨?_, ?_, ?_, hs.rows_len, ?_, ?_⟩
    · intro v hv
      simp only [Function.update_apply] at hv
      by_cases h : v = w
      · subst h; simp [holdsLock] at hv
      · simp [h] at hv
        have := hs.lock_of_active v hv
        rw [hlk] at this
        exact absurd (Option.some_injective _ this.symm) h
    · intro v hl'
      replace hl' : (none : Option (Fin n)) = some v := hl'
      simp at hl'
    · intro v hv
      simp only [Function.update_apply] at hv
      by_cases h : v = w
      · subst h; simp at hv
      · simp [h] at hv
        have := hs.lock_of_active v (by rw [hv]; rfl)
        rw [hlk] at this
        exact absurd (Option.some_injective _ this.symm) h
    · intro v r' hv
      simp only [Function.update_apply] at hv
      show r' ∈ s.rows
      by_cases h : v = w
      · subst h
        rcases hv with hv | hv
        · simp at hv; subst hv; exact hrmem
        · simp at hv
      · simp [h] at hv; exact hs.res_mem v r' hv
    · intro _
      exact Or.inr (List.ne_nil_of_mem hrmem)

theorem reachable_inv {n : Nat} {s : CState n}
    (h : Relation.ReflTransGen CStep (initCState n) s) : CInv s := by
  induction h with
  | refl => exact initCState_inv n
  | tail _ hstep ih => exact ih.preserve hstep

theorem c1Chain : Relation.ReflTransGen (CStep (n := 1)) (initCState 1) c1Final := by
  have h1 : CStep (initCState 1) c1S1 := CStep.check1_empty _ 0 rfl rfl
  have h2 : CStep c1S1 c1S2 := CStep.lock_acquire _ 0 rfl rfl
  have h3 : CStep c1S2 c1S3 := CStep.check2_empty _ 0 rfl rfl
  have h4 : CStep c1S3 c1S4 := CStep.create _ 0 rfl
  have h5 : CStep c1S4 c1Final := CStep.release _ 0 0 rfl
  exact .head h1 (.head h2 (.head h3 (.head h4 (.single h5))))

/-- C1: for any interleaving of N concurrent `get_or_create_sandbox`
executions on the same (challenge, user) key - double-checked query before
and after acquiring the named lock - once every worker has finished,
exactly one active Sandbox row exists for the key, and every worker that
returned a sandbox returned that same row. -/
theorem get_or_create_sandbox_serialized {n : Nat} (hn : 0 < n)
    (s : CState n)
    (hreach : Relation.ReflTransGen CStep (initCState n) s)
    (hdone : ∀ w, ∃ res, s.workers w = .done res) :
    ∃ r, s.rows = [r] ∧
      ∀ w x, s.workers w = .done (some x) → x = r := by
  have hinv := reachable_inv hreach
  have hlock : s.lock = none := by
    cases hl : s.lock with
    | none => rfl
    | some v =>
      have hact := hinv.active_of_lock v hl
      obtain ⟨res, hres⟩ := hdone v
      rw [hres] at hact
      simp [holdsLock] at hact
  have hne : s.rows ≠ [] := by
    intro hnil
    obtain ⟨res, hres⟩ := hdone ⟨0, hn⟩
    cases res with
    | some x =>
      have hmem := hinv.res_mem ⟨0, hn⟩ x (Or.inl hres)
      rw [hnil] at hmem
      simp at hmem
    | none =>
      rcases hinv.giveup_ok ⟨⟨0, hn⟩, hres⟩ with h | h
      · exact h hlock
      · exact h hnil
  obtain ⟨r, hr⟩ : ∃ r, s.rows = [r] := by
    rcases hrows : s.rows with _ | ⟨a, _ | ⟨b, l⟩⟩
    · exact absurd hrows hne
    · exact ⟨a, rfl⟩
    · have hlen := hinv.rows_len
      rw [hrows] at hlen
      simp at hlen
  refine ⟨r, hr, ?_⟩
  intro w x hx
  have hmem := hinv.res_mem w x (Or.inl hx)
  rw [hr] at hmem
  simpa using hmem

/-- Witness for C1: the single-worker run that creates row 0. -/
theorem get_or_create_sandbox_serialized_witness :
    ∃ r, c1Final.rows = [r] ∧
      ∀ w x, c1Final.workers w = .done (some x) → x = r :=
  get_or_create_sandbox_serialized (by decide) c1Final c1Chain
    (by
      intro w
      refine ⟨some 0, ?_⟩
      have hw : w = 0 := Subsingleton.elim w 0
      rw [hw]
      rfl)

/-! ## Basic facts about the firewall operations -/

theorem delElem_fst (s : Finset Int) (p : Int) : (delElem s p).1 = s.erase p := by
  unfold delElem
  split
  · rfl
  · next h => exact (Finset.erase_eq_of_not_mem h).symm

theorem delMapElem_fst (m : Finset (Int × String)) (p : Int) (ip : String) :
    (delMapElem m p ip).1 = m.erase (p, ip) := by
  unfold delMapElem
  split
  · rfl
  · next h => exact (Finset.erase_eq_of_not_mem h).symm

theorem initialize_firewall_initialized (st : FirewallState) :
    (initialize_firewall st).initialized = true := by
  unfold initialize_firewall
  split
  · next h => exact h
  · rfl

theorem initialize_firewall_static (st : FirewallState) :
    (initialize_firewall st).static_ports = st.static_ports := by
  unfold initialize_firewall; split <;> rfl

theorem initialize_firewall_sandbox (st : FirewallState) :
    (initialize_firewall st).sandbox_ports = st.sandbox_ports := by
  unfold initialize_firewall; split <;> rfl

theorem initialize_firewall_map (st : FirewallState) :
    (initialize_firewall st).port_to_ip = st.port_to_ip := by
  unfold initialize_firewall; split <;> rfl

theorem add_port_ip_mapping_init (st : FirewallState) (port : Int) (ip : String) :
    (add_port_ip_mapping st port ip).1.initialized = true := by
  unfold add_port_ip_mapping addMapElem
  by_cases hi : st.initialized <;> by_cases hm : (port, ip) ∈ st.port_to_ip <;>
    simp [hi, hm, initialize_firewall]

theorem add_port_ip_mapping_map (st : FirewallState) (port : Int) (ip : String) :
    (add_port_ip_mapping st port ip).1.port_to_ip =
      if (port, ip) ∈ st.port_to_ip then st.port_to_ip
      else insert (port, ip) st.port_to_ip := by
  unfold add_port_ip_mapping addMapElem
  by_cases hi : st.initialized <;> by_cases hm : (port, ip) ∈ st.port_to_ip <;>
    simp [hi, hm, initialize_firewall]

theorem add_port_ip_mapping_snd (st : FirewallState) (port : Int) (ip : String) :
    (add_port_ip_mapping st port ip).2 =
      !(decide ((port, ip) ∈ st.port_to_ip)) := by
  unfold add_port_ip_mapping addMapElem
  by_cases hi : st.initialized <;> by_cases hm : (port, ip) ∈ st.port_to_ip <;>
    simp [hi, hm, initialize_firewall]

theorem add_port_ip_mapping_static (st : FirewallState) (port : Int) (ip : String) :
    (add_port_ip_mapping st port ip).1.static_ports = st.static_ports := by
  unfold add_port_ip_mapping addMapElem
  by_cases hi : st.initialized <;> by_cases hm : (port, ip) ∈ st.port_to_ip <;>
    simp [hi, hm, initialize_firewall]

theorem remove_port_ip_mapping_init (st : FirewallState) (port : Int) (ip : String) :
    (remove_port_ip_mapping st port ip).1.initialized = st.initialized := by
  unfold remove_port_ip_mapping; split <;> rfl

theorem remove_port_ip_mapping_sandbox (st : FirewallState) (port : Int)
    (ip : String) :
    (remove_port_ip_mapping st port ip).1.sandbox_ports = st.sandbox_ports := by
  unfold remove_port_ip_mapping; split <;> rfl

theorem remove_port_ip_mapping_static (st : FirewallState) (port : Int)
    (ip : String) :
    (remove_port_ip_mapping st port ip).1.static_ports = st.static_ports := by
  unfold remove_port_ip_mapping; split <;> rfl

theorem remove_port_ip_mapping_map_of_init (st : FirewallState) (port : Int)
    (ip : String) (h : st.initialized = true) :
    (remove_port_ip_mapping st port ip).1.port_to_ip =
      st.port_to_ip.erase (port, ip) := by
  unfold remove_port_ip_mapping
  simp [h, delMapElem_fst]

theorem remove_port_ip_mapping_map_subset (st : FirewallState) (port : Int)
    (ip : String) :
    (remove_port_ip_mapping st port ip).1.port_to_ip ⊆ st.port_to_ip := by
  unfold remove_port_ip_mapping
  split
  · exact fun e he => he
  · intro e he
    rw [delMapElem_fst] at he
    exact Finset.mem_of_mem_erase he

theorem cleanPortOnce_sandbox (st : FirewallState) (p : Int) :
    (cleanPortOnce st p).sandbox_ports = st.sandbox_ports.erase p :=
  delElem_fst st.sandbox_ports p

theorem cleanPortOnce_map (st : FirewallState) (p : Int) :
    (cleanPortOnce st p).port_to_ip =
      st.port_to_ip.filter (fun e => e.1 ≠ p) := rfl

theorem mem_foldl_clean_sandbox (l : List Int) (st : FirewallState) (x : Int) :
    x ∈ (l.foldl cleanPortOnce st).sandbox_ports ↔
      x ∈ st.sandbox_ports ∧ x ∉ l := by
  induction l generalizing st with
  | nil => simp
  | cons a t ih =>
    rw [List.foldl_cons, ih, cleanPortOnce_sandbox]
    simp only [Finset.mem_erase, List.mem_cons]
    tauto

theorem mem_foldl_clean_map (l : List Int) (st : FirewallState)
    (e : Int × String) :
    e ∈ (l.foldl cleanPortOnce st).port_to_ip ↔
      e ∈ st.port_to_ip ∧ e.1 ∉ l := by
  induction l generalizing st with
  | nil => simp
  | cons a t ih =>
    rw [List.foldl_cons, ih, cleanPortOnce_map]
    simp only [Finset.mem_filter, List.mem_cons]
    tauto

theorem mem_ports_to_clean (sp : Int) (pm : Option (List (String × PortVal)))
    (p : Int) :
    p ∈ ports_to_clean sp pm ↔ p = sp ∨ p ∈ portValInts pm := by
  unfold ports_to_clean portValInts
  by_cases ht : listTruthy pm
  · simp only [ht, if_true]
    have key : ∀ (l : List (String × PortVal)) (acc : List Int),
        p ∈ l.foldl (fun acc kv =>
          match kv.2.toIntCoerce with
          | some q => if q ∈ acc then acc else acc ++ [q]
          | none => acc) acc ↔
        p ∈ acc ∨ p ∈ l.filterMap (fun kv => kv.2.toIntCoerce) := by
      intro l
      induction l with
      | nil => intro acc; simp
      | cons kv t ih =>
        intro acc
        rw [List.foldl_cons]
        cases hc : kv.2.toIntCoerce with
        | none =>
          simp only [hc]
          rw [ih]
          simp [List.filterMap_cons, hc]
        | some q =>
          simp only [hc]
          rw [ih]
          simp only [List.filterMap_cons, hc, List.mem_cons]
          by_cases hq : q ∈ acc
          · simp only [if_pos hq]
            constructor
            · rintro (h | h)
              · exact Or.inl h
              · exact Or.inr (Or.inr h)
            · rintro (h | h | h)
              · exact Or.inl h
              · exact Or.inl (by rw [h]; exact hq)
              · exact Or.inr h
          · simp only [if_neg hq, List.mem_append, List.mem_singleton]
            tauto
    rw [key]
    simp
  · simp [ht]

/-! ## Facts about the login firewall handoff -/

theorem removeFold_init (l : List Int) (fw : FirewallState) (ip : String) :
    (l.foldl (fun f p => (remove_port_ip_mapping f p ip).1) fw).initialized
      = fw.initialized := by
  induction l generalizing fw with
  | nil => rfl
  | cons a t ih => rw [List.foldl_cons, ih, remove_port_ip_mapping_init]

theorem removeFold_map_subset (l : List Int) (fw : FirewallState) (ip : String) :
    (l.foldl (fun f p => (remove_port_ip_mapping f p ip).1) fw).port_to_ip
      ⊆ fw.port_to_ip := by
  induction l generalizing fw with
  | nil => exact fun e he => he
  | cons a t ih =>
    rw [List.foldl_cons]
    exact fun e he =>
      remove_port_ip_mapping_map_subset fw a ip (ih _ he)

theorem removeFold_map_not_mem (l : List Int) (fw : FirewallState) (ip : String)
    (hinit : fw.initialized = true) (p : Int) (hp : p ∈ l) :
    (p, ip) ∉ (l.foldl (fun f q => (remove_port_ip_mapping f q ip).1)
      fw).port_to_ip := by
  induction l generalizing fw with
  | nil => simp at hp
  | cons a t ih =>
    rw [List.foldl_cons]
    rcases List.mem_cons.mp hp with hpa | hpt
    · rw [hpa]
      intro hmem
      have hsub := removeFold_map_subset t
        ((remove_port_ip_mapping fw a ip).1) ip hmem
      rw [remove_port_ip_mapping_map_of_init fw a ip hinit] at hsub
      exact absurd hsub (Finset.not_mem_erase _ _)
    · exact ih ((remove_port_ip_mapping fw a ip).1)
        (by rw [remove_port_ip_mapping_init, hinit]) hpt

theorem loginRemoveOld_init (ch : List ChallengeRec) (oldIp : String)
    (f : FirewallState) (sb : SandboxRec) :
    (loginRemoveOld ch oldIp f sb).initialized = f.initialized := by
  unfold loginRemoveOld
  split
  · rfl
  · rw [removeFold_init, remove_port_ip_mapping_init]

theorem loginRemoveOld_map_subset (ch : List ChallengeRec) (oldIp : String)
    (f : FirewallState) (sb : SandboxRec) :
    (loginRemoveOld ch oldIp f sb).port_to_ip ⊆ f.port_to_ip := by
  unfold loginRemoveOld
  split
  · exact fun e he => he
  · exact fun e he =>
      remove_port_ip_mapping_map_subset f sb.container_port oldIp
        (removeFold_map_subset _ _ _ he)

theorem loginRemoveOld_removes (ch : List ChallengeRec) (oldIp : String)
    (f : FirewallState) (sb : SandboxRec)
    (hinit : f.initialized = true)
    (hstatic : challenge_static ch sb.challenge_id = false)
    (p : Int) (hp : p ∈ sandboxPorts sb) :
    (p, oldIp) ∉ (loginRemoveOld ch oldIp f sb).port_to_ip := by
  unfold loginRemoveOld
  rw [hstatic]
  simp only [Bool.false_eq_true, if_false]
  rcases List.mem_cons.mp hp with hpc | hpv
  · rw [hpc]
    intro hmem
    have hsub := removeFold_map_subset (portValInts sb.port_mappings)
      ((remove_port_ip_mapping f sb.container_port oldIp).1) oldIp hmem
    rw [remove_port_ip_mapping_map_of_init f sb.container_port oldIp hinit]
      at hsub
    exact absurd hsub (Finset.not_mem_erase _ _)
  · exact removeFold_map_not_mem _ _ _
      (by rw [remove_port_ip_mapping_init, hinit]) p hpv

theorem removeAll_init (ch : List ChallengeRec) (oldIp : String)
    (l : List SandboxRec) (fw : FirewallState) :
    (l.foldl (loginRemoveOld ch oldIp) fw).initialized = fw.initialized := by
  induction l generalizing fw with
  | nil => rfl
  | cons a t ih => rw [List.foldl_cons, ih, loginRemoveOld_init]

theorem removeAll_map_subset (ch : List ChallengeRec) (oldIp : String)
    (l : List SandboxRec) (fw : FirewallState) :
    (l.foldl (loginRemoveOld ch oldIp) fw).port_to_ip ⊆ fw.port_to_ip := by
  induction l generalizing fw with
  | nil => exact fun e he => he
  | cons a t ih =>
    rw [List.foldl_cons]
    exact fun e he => loginRemoveOld_map_subset ch oldIp fw a (ih _ he)

theorem removeAll_removes (ch : List ChallengeRec) (oldIp : String)
    (l : List SandboxRec) (fw : FirewallState)
    (hinit : fw.initialized = true) (sb : SandboxRec) (hsb : sb ∈ l)
    (hstatic : challenge_static ch sb.challenge_id = false)
    (p : Int) (hp : p ∈ sandboxPorts sb) :
    (p, oldIp) ∉ (l.foldl (loginRemoveOld ch oldIp) fw).port_to_ip := by
  induction l generalizing fw with
  | nil => simp at hsb
  | cons a t ih =>
    rw [List.foldl_cons]
    rcases List.mem_cons.mp hsb with hsba | hsbt
    · intro hmem
      exact absurd (removeAll_map_subset ch oldIp t _ hmem)
        (loginRemoveOld_removes ch oldIp fw a hinit (hsba ▸ hstatic) p
          (hsba ▸ hp))
    · exact ih _ (by rw [loginRemoveOld_init]; exact hinit) hsbt

theorem add_map_mem_of_mem (st : FirewallState) (port : Int) (ip : String)
    (e : Int × String) (he : e ∈ st.port_to_ip) :
    e ∈ (add_port_ip_mapping st port ip).1.port_to_ip := by
  rw [add_port_ip_mapping_map]
  split
  · exact he
  · exact Finset.mem_insert_of_mem he

theorem add_map_mem_self (st : FirewallState) (port : Int) (ip : String) :
    (port, ip) ∈ (add_port_ip_mapping st port ip).1.port_to_ip := by
  rw [add_port_ip_mapping_map]
  split
  · next h => exact h
  · exact Finset.mem_insert_self _ _

theorem add_map_new_only (st : FirewallState) (port : Int) (ip : String)
    (e : Int × String) (he : e ∈ (add_port_ip_mapping st port ip).1.port_to_ip) :
    e ∈ st.port_to_ip ∨ e = (port, ip) := by
  rw [add_port_ip_mapping_map] at he
  revert he
  split
  · exact fun he => Or.inl he
  · intro he
    rcases Finset.mem_insert.mp he with h | h
    · exact Or.inr h
    · exact Or.inl h

theorem addFold_preserves (l : List Int) (fw : FirewallState) (ip : String)
    (e : Int × String) (he : e ∈ fw.port_to_ip) :
    e ∈ (l.foldl (fun f p => (add_port_ip_mapping f p ip).1) fw).port_to_ip := by
  induction l generalizing fw with
  | nil => exact he
  | cons a t ih =>
    rw [List.foldl_cons]
    exact ih _ (add_map_mem_of_mem fw a ip e he)

theorem addFold_no_other_ip (l : List Int) (fw : FirewallState) (ip other : String)
    (hne : other ≠ ip) (q : Int) (hq : (q, other) ∉ fw.port_to_ip) :
    (q, other) ∉ (l.foldl (fun f p => (add_port_ip_mapping f p ip).1)
      fw).port_to_ip := by
  induction l generalizing fw with
  | nil => exact hq
  | cons a t ih =>
    rw [List.foldl_cons]
    refine ih _ ?_
    intro hmem
    rcases add_map_new_only fw a ip (q, other) hmem with h | h
    · exact hq h
    · exact hne (congrArg Prod.snd h)

theorem addFold_adds (l : List Int) (fw : FirewallState) (ip : String)
    (p : Int) (hp : p ∈ l) :
    (p, ip) ∈ (l.foldl (fun f q => (add_port_ip_mapping f q ip).1)
      fw).port_to_ip := by
  induction l generalizing fw with
  | nil => simp at hp
  | cons a t ih =>
    rw [List.foldl_cons]
    rcases List.mem_cons.mp hp with hpa | hpt
    · rw [hpa]
      exact addFold_preserves t _ ip (a, ip) (add_map_mem_self fw a ip)
    · exact ih _ hpt

theorem loginAddNew_preserves (ch : List ChallengeRec) (ip : String)
    (f : FirewallState) (sb : SandboxRec) (e : Int × String)
    (he : e ∈ f.port_to_ip) :
    e ∈ (loginAddNew ch ip f sb).port_to_ip := by
  unfold loginAddNew
  split
  · exact he
  · exact addFold_preserves _ _ _ e
      (add_map_mem_of_mem f sb.container_port ip e he)

theorem loginAddNew_no_other_ip (ch : List ChallengeRec) (ip other : String)
    (f : FirewallState) (sb : SandboxRec) (hne : other ≠ ip) (q : Int)
    (hq : (q, other) ∉ f.port_to_ip) :
    (q, other) ∉ (loginAddNew ch ip f sb).port_to_ip := by
  unfold loginAddNew
  split
  · exact hq
  · refine addFold_no_other_ip _ _ _ _ hne q ?_
    intro hmem
    rcases add_map_new_only f sb.container_port ip (q, other) hmem with h | h
    · exact hq h
    · exact hne (congrArg Prod.snd h)

theorem loginAddNew_adds (ch : List ChallengeRec) (ip : String)
    (f : FirewallState) (sb : SandboxRec)
    (hstatic : challenge_static ch sb.challenge_id = false)
    (p : Int) (hp : p ∈ sandboxPorts sb) :
    (p, ip) ∈ (loginAddNew ch ip f sb).port_to_ip := by
  unfold loginAddNew
  rw [hstatic]
  simp only [Bool.false_eq_true, if_false]
  rcases List.mem_cons.mp hp with hpc | hpv
  · rw [hpc]
    exact addFold_preserves _ _ _ (sb.container_port, ip)
      (add_map_mem_self f sb.container_port ip)
  · exact addFold_adds _ _ _ p hpv

theorem addAll_preserves (ch : List ChallengeRec) (ip : String)
    (l : List SandboxRec) (fw : FirewallState) (e : Int × String)
    (he : e ∈ fw.port_to_ip) :
    e ∈ (l.foldl (loginAddNew ch ip) fw).port_to_ip := by
  induction l generalizing fw with
  | nil => exact he
  | cons a t ih =>
    rw [List.foldl_cons]
    exact ih _ (loginAddNew_preserves ch ip fw a e he)

theorem addAll_no_other_ip (ch : List ChallengeRec) (ip other : String)
    (l : List SandboxRec) (fw : FirewallState) (hne : other ≠ ip) (q : Int)
    (hq : (q, other) ∉ fw.port_to_ip) :
    (q, other) ∉ (l.foldl (loginAddNew ch ip) fw).port_to_ip := by
  induction l generalizing fw with
  | nil => exact hq
  | cons a t ih =>
    rw [List.foldl_cons]
    exact ih _ (loginAddNew_no_other_ip ch ip other fw a hne q hq)

theorem addAll_adds (ch : List ChallengeRec) (ip : String)
    (l : List SandboxRec) (fw : FirewallState) (sb : SandboxRec)
    (hsb : sb ∈ l) (hstatic : challenge_static ch sb.challenge_id = false)
    (p : Int) (hp : p ∈ sandboxPorts sb) :
    (p, ip) ∈ (l.foldl (loginAddNew ch ip) fw).port_to_ip := by
  induction l generalizing fw with
  | nil => simp at hsb
  | cons a t ih =>
    rw [List.foldl_cons]
    rcases List.mem_cons.mp hsb with hsba | hsbt
    · exact addAll_preserves ch ip t _ (p, ip)
        (loginAddNew_adds ch ip fw a (hsba ▸ hstatic) p (hsba ▸ hp))
    · exact ih _ hsbt

theorem find?_of_filter_eq_single {α : Type} (l : List α) (p : α → Bool)
    (x : α) (h : l.filter p = [x]) : l.find? p = some x := by
  induction l with
  | nil => simp at h
  | cons a t ih =>
    by_cases hpa : p a = true
    · rw [List.filter_cons_of_pos hpa] at h
      injection h with h1 _
      rw [List.find?_cons_of_pos _ hpa, h1]
    · rw [List.filter_cons_of_neg (by simpa using hpa)] at h
      rw [List.find?_cons_of_neg _ (by simpa using hpa)]
      exact ih h

theorem login_sessions_active (st : AuthState) (u : Nat) (X : String)
    (nid tnow : Nat) :
    (login_session_and_firewall st u X nid tnow).sessions.filter
      (fun s => s.user_id == u && s.active) =
    [⟨nid, u, X, true, tnow + 86400⟩] := by
  have hsess : (login_session_and_firewall st u X nid tnow).sessions =
      (st.sessions.map (fun s =>
        if s.user_id == u && s.active then { s with active := false } else s))
      ++ [⟨nid, u, X, true, tnow + 86400⟩] := by
    unfold login_session_and_firewall
    rfl
  rw [hsess, List.filter_append]
  have hmap0 : (st.sessions.map (fun s =>
      if s.user_id == u && s.active then { s with active := false }
      else s)).filter (fun s => s.user_id == u && s.active) = [] := by
    rw [List.filter_eq_nil_iff]
    intro b hb
    rcases List.mem_map.mp hb with ⟨a, _, hfa⟩
    by_cases hcond : (a.user_id == u && a.active) = true
    · rw [if_pos hcond] at hfa
      rw [← hfa]
      simp
    · rw [if_neg hcond] at hfa
      rw [← hfa]
      simpa using hcond
  rw [hmap0]
  simp

/-! ## Claim theorems -/

/-- C2 (code bug): when `challenge.tcp_ports` is the non-empty list
`[9000]`, `_create_sandbox` requests exactly `9000/tcp` from the container
runtime: the default `8000/tcp` entry is replaced, not unioned, even though
the code afterwards requires a published `8000/tcp` mapping
(`ValueError` otherwise), so such a challenge can never start. -/
theorem challenge_ports_drops_8000 :
    challenge_ports (some [9000]) = ["9000/tcp"] ∧
      "8000/tcp" ∉ challenge_ports (some [9000]) ∧
      challenge_ports none = ["8000/tcp"] := by
  refine ⟨?_, ?_, ?_⟩ <;> decide

/-- C9: on an initialized firewall state `remove_all_ports_for_ip` returns
`True` and leaves the whole state - map, `sandbox_ports`, `static_ports` -
untouched: it is a stub. -/
theorem remove_all_ports_for_ip_stub (st : FirewallState) (ip : String)
    (h : st.initialized = true) :
    remove_all_ports_for_ip st ip = (st, true) := by
  unfold remove_all_ports_for_ip
  simp [h]

/-- Witness for C9 on a concrete initialized state. -/
theorem remove_all_ports_for_ip_stub_witness :
    remove_all_ports_for_ip fwEmptyInit "10.0.0.1" = (fwEmptyInit, true) :=
  remove_all_ports_for_ip_stub fwEmptyInit "10.0.0.1" (by decide)

/-- C8: in `add_port_ip_mapping`, a failed insertion of the
`(port, ip) : accept` element into the map is fatal - the operation reports
failure to its caller (and the map is unchanged) - while a duplicate
insertion of the port into `sandbox_ports` alone is tolerated: the
operation still succeeds and installs the map element. -/
theorem add_port_ip_mapping_failure_policy (st st' : FirewallState)
    (port : Int) (ip : String)
    (hmapdup : (port, ip) ∈ st.port_to_ip)
    (hsetdup : port ∈ st'.sandbox_ports)
    (hmapnew : (port, ip) ∉ st'.port_to_ip) :
    (add_port_ip_mapping st port ip).2 = false ∧
    (add_port_ip_mapping st port ip).1.port_to_ip = st.port_to_ip ∧
    (add_port_ip_mapping st' port ip).2 = true ∧
    (port, ip) ∈ (add_port_ip_mapping st' port ip).1.port_to_ip := by
  refine ⟨?_, ?_, ?_, ?_⟩
  · rw [add_port_ip_mapping_snd]; simp [hmapdup]
  · rw [add_port_ip_mapping_map]; simp [hmapdup]
  · rw [add_port_ip_mapping_snd]; simp [hmapnew]
  · rw [add_port_ip_mapping_map]; simp [hmapnew]

/-- Witness for C8: duplicate map element on one state, duplicate set
element with a fresh map element on the other. -/
theorem add_port_ip_mapping_failure_policy_witness :
    (add_port_ip_mapping fwMapDup 32768 "1.2.3.4").2 = false ∧
    (add_port_ip_mapping fwMapDup 32768 "1.2.3.4").1.port_to_ip =
      fwMapDup.port_to_ip ∧
    (add_port_ip_mapping fwSetDup 32768 "1.2.3.4").2 = true ∧
    ((32768 : Int), "1.2.3.4") ∈
      (add_port_ip_mapping fwSetDup 32768 "1.2.3.4").1.port_to_ip :=
  add_port_ip_mapping_failure_policy fwMapDup fwSetDup 32768 "1.2.3.4"
    (by decide) (by decide) (by decide)

/-- C7 counterexample: on a state whose map already holds
`(32768, 1.2.3.4)`, `add_port_ip_mapping` fails (duplicate element) and
changes nothing, and the subsequent `remove_port_ip_mapping` deletes the
pre-existing entry - the map does not return to its initial value. -/
theorem add_remove_roundtrip_counterexample :
    (remove_port_ip_mapping
        (add_port_ip_mapping fwMapDup 32768 "1.2.3.4").1
        32768 "1.2.3.4").1.port_to_ip ≠ fwMapDup.port_to_ip := by
  decide

/-- C7 (amended): provided `(p, ip)` is not already in the map,
`add_port_ip_mapping p ip` followed by `remove_port_ip_mapping p ip`
restores the map to its initial value; and `remove_port_ip_mapping` never
changes membership of `sandbox_ports` (unconditionally). -/
theorem add_remove_roundtrip (st : FirewallState) (port : Int) (ip : String)
    (hnew : (port, ip) ∉ st.port_to_ip) :
    (remove_port_ip_mapping (add_port_ip_mapping st port ip).1
        port ip).1.port_to_ip = st.port_to_ip ∧
    (∀ st' : FirewallState, ∀ p : Int, ∀ i : String,
      (remove_port_ip_mapping st' p i).1.sandbox_ports = st'.sandbox_ports) := by
  constructor
  · rw [remove_port_ip_mapping_map_of_init _ _ _
      (add_port_ip_mapping_init st port ip)]
    rw [add_port_ip_mapping_map]
    simp [hnew]
  · intro st' p i
    exact remove_port_ip_mapping_sandbox st' p i

/-- Witness for C7 on a concrete state not containing the element. -/
theorem add_remove_roundtrip_witness :
    (remove_port_ip_mapping (add_port_ip_mapping fwEmptyInit 32768 "1.2.3.4").1
        32768 "1.2.3.4").1.port_to_ip = fwEmptyInit.port_to_ip ∧
    (∀ st' : FirewallState, ∀ p : Int, ∀ i : String,
      (remove_port_ip_mapping st' p i).1.sandbox_ports = st'.sandbox_ports) :=
  add_remove_roundtrip fwEmptyInit 32768 "1.2.3.4" (by decide)

/-- C5 counterexample: `clean_orphan_ports` only parses ports within
32768-65535 out of the `sandbox_ports` listing, so a port such as 8000
survives even when the active set is empty: the claim fails on that
state. -/
theorem clean_orphan_ports_counterexample :
    ¬((clean_orphan_ports fwLowPort ∅).1.sandbox_ports \ (∅ : Finset Int) = ∅) := by
  have hres : (clean_orphan_ports fwLowPort ∅).1 =
      (((fwLowPort.sandbox_ports.filter (fun p => portInSandboxRange p)) \ ∅).sort
        (· ≤ ·)).foldl cleanPortOnce fwLowPort := by
    unfold clean_orphan_ports
    simp [show fwLowPort.initialized = true from rfl]
  intro hempty
  have h8 : (8000 : Int) ∈ (clean_orphan_ports fwLowPort ∅).1.sandbox_ports := by
    rw [hres, mem_foldl_clean_sandbox]
    refine ⟨by decide, ?_⟩
    rw [Finset.mem_sort, Finset.mem_sdiff, Finset.mem_filter]
    rintro ⟨⟨_, hin⟩, _⟩
    exact absurd hin (by decide)
  have hmem : (8000 : Int) ∈
      (clean_orphan_ports fwLowPort ∅).1.sandbox_ports \ (∅ : Finset Int) :=
    Finset.mem_sdiff.mpr ⟨h8, by simp⟩
  rw [hempty] at hmem
  simp at hmem

/-- C5 (amended): for an initialized firewall state whose `sandbox_ports`
all lie within 32768-65535 and whose map keys' ports all belong to
`sandbox_ports`, after `clean_orphan_ports(active)` the set
`sandbox_ports \ active` is empty and every surviving map key's port is in
`active`. -/
theorem clean_orphan_ports_spec (st : FirewallState) (active : Finset Int)
    (hinit : st.initialized = true)
    (hrange : ∀ p ∈ st.sandbox_ports, portInSandboxRange p = true)
    (hmap : ∀ e ∈ st.port_to_ip, e.1 ∈ st.sandbox_ports) :
    (clean_orphan_ports st active).1.sandbox_ports \ active = ∅ ∧
    ∀ e ∈ (clean_orphan_ports st active).1.port_to_ip, e.1 ∈ active := by
  have hres : (clean_orphan_ports st active).1 =
      (((st.sandbox_ports.filter (fun p => portInSandboxRange p)) \ active).sort
        (· ≤ ·)).foldl cleanPortOnce st := by
    unfold clean_orphan_ports
    simp [hinit]
  rw [hres]
  constructor
  · rw [Finset.sdiff_eq_empty_iff_subset]
    intro x hx
    rw [mem_foldl_clean_sandbox] at hx
    obtain ⟨hxs, hxl⟩ := hx
    rw [Finset.mem_sort] at hxl
    by_contra hxa
    exact hxl (Finset.mem_sdiff.mpr
      ⟨Finset.mem_filter.mpr ⟨hxs, hrange x hxs⟩, hxa⟩)
  · intro e he
    rw [mem_foldl_clean_map] at he
    obtain ⟨hes, hel⟩ := he
    rw [Finset.mem_sort] at hel
    by_contra hea
    exact hel (Finset.mem_sdiff.mpr
      ⟨Finset.mem_filter.mpr ⟨hmap e hes, hrange _ (hmap e hes)⟩, hea⟩)

/-- Witness for the amended C5 on a concrete consistent state. -/
theorem clean_orphan_ports_spec_witness :
    (clean_orphan_ports fwConsistent {32768}).1.sandbox_ports \
      ({32768} : Finset Int) = ∅ ∧
    ∀ e ∈ (clean_orphan_ports fwConsistent {32768}).1.port_to_ip,
      e.1 ∈ ({32768} : Finset Int) :=
  clean_orphan_ports_spec fwConsistent {32768} (by decide) (by decide)
    (by decide)

/-- C3 counterexample: when the in-process firewall service is not yet
initialized, `cleanup_sandbox` performs no firewall removal at all, so the
map entry and set entry for the sandbox's port survive the cleanup. -/
theorem cleanup_sandbox_counterexample :
    ((32768 : Int), "1.2.3.4") ∈ (cleanup_sandbox worldUninit 1 0).fw.port_to_ip ∧
    (32768 : Int) ∈ (cleanup_sandbox worldUninit 1 0).fw.sandbox_ports ∧
    (32768 : Int) ∈ sandboxPorts sbOne := by
  decide

/-- C3 (amended): provided the firewall service is initialized, after
`cleanup_sandbox(S.id)` completes no map entry references any of S's ports
(primary or int-coercible `port_mappings` values), no `sandbox_ports`
entry references them, S's row has `active=false` with `destroyed_at` set,
and S's volume image file no longer exists. -/
theorem cleanup_sandbox_spec (w : WorldState) (sid now : Nat) (sb : SandboxRec)
    (hfind : w.sandboxes.find? (fun s => s.id == sid) = some sb)
    (hinit : w.fw.initialized = true) :
    (∀ p ∈ sandboxPorts sb,
        p ∉ (cleanup_sandbox w sid now).fw.sandbox_ports ∧
        ∀ ip : String, (p, ip) ∉ (cleanup_sandbox w sid now).fw.port_to_ip) ∧
    (∀ s ∈ (cleanup_sandbox w sid now).sandboxes, s.id = sid →
        s.active = false ∧ s.destroyed_at = some now) ∧
    volume_file_path sb.challenge_id sb.user_id ∉
      (cleanup_sandbox w sid now).files := by
  have hfwq : (cleanup_sandbox w sid now).fw =
      (ports_to_clean sb.container_port sb.port_mappings).foldl
        cleanPortOnce w.fw := by
    unfold cleanup_sandbox
    simp only [hfind]
    show (remove_all_port_mappings_for_sandbox w.fw sb.container_port
      sb.port_mappings).1 = _
    unfold remove_all_port_mappings_for_sandbox
    simp [hinit]
  have hsbq : (cleanup_sandbox w sid now).sandboxes =
      w.sandboxes.map (fun s =>
        if s.id == sid then { s with active := false, destroyed_at := some now }
        else s) := by
    unfold cleanup_sandbox
    simp only [hfind]
  have hfiq : (cleanup_sandbox w sid now).files =
      clean_up_volume w.files sb.challenge_id sb.user_id := by
    unfold cleanup_sandbox
    simp only [hfind]
  refine ⟨?_, ?_, ?_⟩
  · intro p hp
    have hpl : p ∈ ports_to_clean sb.container_port sb.port_mappings := by
      rw [mem_ports_to_clean]
      simpa [sandboxPorts, List.mem_cons] using hp
    constructor
    · rw [hfwq, mem_foldl_clean_sandbox]
      exact fun hmem => hmem.2 hpl
    · intro ip
      rw [hfwq, mem_foldl_clean_map]
      exact fun hmem => hmem.2 hpl
  · rw [hsbq]
    intro s hs hid
    rcases List.mem_map.mp hs with ⟨a, _, hfa⟩
    by_cases hcond : (a.id == sid) = true
    · rw [if_pos hcond] at hfa
      rw [← hfa]
      exact ⟨rfl, rfl⟩
    · rw [if_neg hcond] at hfa
      rw [← hfa] at hid
      exact absurd (by simp [hid] : (a.id == sid) = true) hcond
  · rw [hfiq]
    unfold clean_up_volume
    intro hmem
    exact absurd (Finset.mem_of_mem_erase hmem) (Finset.not_mem_erase _ _)

/-- Witness for the amended C3 on a concrete initialized world. -/
theorem cleanup_sandbox_spec_witness :
    (∀ p ∈ sandboxPorts sbOne,
        p ∉ (cleanup_sandbox worldInit 1 99).fw.sandbox_ports ∧
        ∀ ip : String, (p, ip) ∉ (cleanup_sandbox worldInit 1 99).fw.port_to_ip) ∧
    (∀ s ∈ (cleanup_sandbox worldInit 1 99).sandboxes, s.id = 1 →
        s.active = false ∧ s.destroyed_at = some 99) ∧
    volume_file_path sbOne.challenge_id sbOne.user_id ∉
      (cleanup_sandbox worldInit 1 99).files :=
  cleanup_sandbox_spec worldInit 1 99 sbOne (by decide) (by decide)

/-- C6: for a challenge whose stored flag is `FLAG{test123}`, if the user
has no prior correct submission then submitting `"  FLAG{test123}  "`
returns `(True, "correct flag")` - both flags are stripped of surrounding
whitespace before comparison - and a `Submission` row with `correct=True`
is appended; with a prior correct submission it instead returns
`(False, "You have already solved this challenge.")`. -/
theorem submit_flag_spec (db : SubmitDb) (u cid : Nat) (c : ChallengeRec)
    (hfind : db.challenges.find? (fun ch => ch.id == cid) = some c)
    (hflag : c.flag = "FLAG{test123}") :
    ((db.submissions.any (fun s =>
        s.user_id == u && s.challenge_id == cid && s.correct)) = false →
      submit_flag db u cid "  FLAG{test123}  " =
        ({ db with submissions := db.submissions ++ [⟨u, cid, true⟩] },
          true, "correct flag")) ∧
    ((db.submissions.any (fun s =>
        s.user_id == u && s.challenge_id == cid && s.correct)) = true →
      submit_flag db u cid "  FLAG{test123}  " =
        (db, false, "You have already solved this challenge.")) := by
  have hstrip : (pyStrip "  FLAG{test123}  " == pyStrip c.flag) = true := by
    rw [hflag]; decide
  constructor
  · intro hnone
    unfold submit_flag
    simp [hfind, hnone, hstrip]
  · intro hdup
    unfold submit_flag
    simp [hfind, hdup]

/-- Witness for C6: the fresh and the already-solved database. -/
theorem submit_flag_spec_witness :
    submit_flag dbFresh 4 1 "  FLAG{test123}  " =
      ({ dbFresh with submissions := dbFresh.submissions ++ [⟨4, 1, true⟩] },
        true, "correct flag") ∧
    submit_flag dbSolved 4 1 "  FLAG{test123}  " =
      (dbSolved, false, "You have already solved this challenge.") :=
  ⟨(submit_flag_spec dbFresh 4 1 chalTest (by decide) rfl).1 (by decide),
   (submit_flag_spec dbSolved 4 1 chalTest (by decide) rfl).2 (by decide)⟩

/-- C10: on the middleware's IP-mismatch path - authenticated non-banned
non-admin user, no active session at the current IP, some other active
session found - the old session is set `active=False` before the request
completes, whether or not the firewall removals raise, and the user is
redirected to login. -/
theorem middleware_ip_mismatch_deactivates (st : AuthState) (user : UserRec)
    (client_ip : String) (fw_raises : Bool) (old : SessionRec)
    (hban : user.banned = false) (hadmin : user.is_admin = false)
    (hnomatch : st.sessions.any (fun s => s.user_id == user.id &&
      s.ip_address == client_ip && s.active) = false)
    (hold : st.sessions.find? (fun s => s.user_id == user.id && s.active)
      = some old) :
    (∀ s ∈ (process_request st user client_ip fw_raises).1.sessions,
       s.id = old.id → s.active = false) ∧
    (process_request st user client_ip fw_raises).2 =
      MwOutcome.redirectLogin := by
  have hres : process_request st user client_ip fw_raises =
      ({ st with
          sessions := st.sessions.map (fun s =>
            if s.id == old.id then { s with active := false } else s),
          fw := if fw_raises then st.fw
            else mwRemoveOldRules st user.id old.ip_address },
        MwOutcome.redirectLogin) := by
    unfold process_request
    simp [hban, hadmin, hnomatch, hold]
  rw [hres]
  constructor
  · intro s hs hid
    rcases List.mem_map.mp hs with ⟨a, _, hfa⟩
    by_cases hcond : (a.id == old.id) = true
    · rw [if_pos hcond] at hfa
      rw [← hfa]
    · rw [if_neg hcond] at hfa
      rw [← hfa] at hid
      exact absurd (by simp [hid] : (a.id == old.id) = true) hcond
  · rfl

/-- C4: when user U logs in from IP X while holding exactly one prior
active session, at IP Y with Y ≠ X (and Y non-empty, as the source treats
an empty `old_ip` as absent): afterwards the only active session of U is
the new one at IP X, the map holds no accept pairing any port of U's
active non-static sandboxes with Y, and it holds an accept pairing each
such port with X. -/
theorem login_ip_handoff (st : AuthState) (u : Nat) (X Y : String)
    (sess : SessionRec) (nid tnow : Nat)
    (hone : st.sessions.filter (fun s => s.user_id == u && s.active) = [sess])
    (hY : sess.ip_address = Y) (hYX : Y ≠ X) (hYne : Y ≠ "") :
    ((login_session_and_firewall st u X nid tnow).sessions.filter
        (fun s => s.user_id == u && s.active) =
      [⟨nid, u, X, true, tnow + 86400⟩]) ∧
    (∀ sb ∈ st.sandboxes, sb.user_id = some u → sb.active = true →
      challenge_static st.challenges sb.challenge_id = false →
      ∀ p ∈ sandboxPorts sb,
        (p, Y) ∉ (login_session_and_firewall st u X nid tnow).fw.port_to_ip ∧
        (p, X) ∈ (login_session_and_firewall st u X nid tnow).fw.port_to_ip) := by
  have hfind : st.sessions.find? (fun s => s.user_id == u && s.active)
      = some sess := find?_of_filter_eq_single _ _ _ hone
  have hcond : (sess.ip_address != "" && sess.ip_address != X) = true := by
    rw [hY]
    simp [bne_iff_ne, hYne, hYX]
  have hfw : (login_session_and_firewall st u X nid tnow).fw =
      (st.sandboxes.filter (fun sb => sb.user_id == some u && sb.active)).foldl
        (loginAddNew st.challenges X)
        ((st.sandboxes.filter
            (fun sb => sb.user_id == some u && sb.active)).foldl
          (loginRemoveOld st.challenges sess.ip_address)
          (initialize_firewall st.fw)) := by
    unfold login_session_and_firewall
    rw [hfind]
    simp [hcond]
  refine ⟨login_sessions_active st u X nid tnow, ?_⟩
  intro sb hsb huser hactive hstatic p hp
  have hsbf : sb ∈ st.sandboxes.filter
      (fun sb => sb.user_id == some u && sb.active) := by
    rw [List.mem_filter]
    exact ⟨hsb, by simp [huser, hactive]⟩
  constructor
  · rw [hfw]
    refine addAll_no_other_ip st.challenges X Y _ _ hYX p ?_
    rw [← hY]
    exact removeAll_removes st.challenges sess.ip_address _ _
      (initialize_firewall_initialized st.fw) sb hsbf hstatic p hp
  · rw [hfw]
    exact addAll_adds st.challenges X _ _ sb hsbf hstatic p hp

/-- Witness for C4: user 5 with one active session at 10.0.0.1 logs in
from 10.0.0.2 while holding one active non-static sandbox on 32768. -/
theorem login_ip_handoff_witness :
    ((login_session_and_firewall authStart 5 "10.0.0.2" 9 500).sessions.filter
        (fun s => s.user_id == 5 && s.active) =
      [⟨9, 5, "10.0.0.2", true, 500 + 86400⟩]) ∧
    (∀ sb ∈ authStart.sandboxes, sb.user_id = some 5 → sb.active = true →
      challenge_static authStart.challenges sb.challenge_id = false →
      ∀ p ∈ sandboxPorts sb,
        (p, "10.0.0.1") ∉
          (login_session_and_firewall authStart 5 "10.0.0.2" 9 500).fw.port_to_ip ∧
        (p, "10.0.0.2") ∈
          (login_session_and_firewall authStart 5 "10.0.0.2" 9 500).fw.port_to_ip) :=
  login_ip_handoff authStart 5 "10.0.0.2" "10.0.0.1" sessOld 9 500
    (by decide) rfl (by decide) (by decide)

/-- Witness for C10, with the firewall block both raising and not. -/
theorem middleware_ip_mismatch_deactivates_witness :
    ((∀ s ∈ (process_request authStart userFive "10.0.0.2" false).1.sessions,
        s.id = sessOld.id → s.active = false) ∧
      (process_request authStart userFive "10.0.0.2" false).2 =
        MwOutcome.redirectLogin) ∧
    ((∀ s ∈ (process_request authStart userFive "10.0.0.2" true).1.sessions,
        s.id = sessOld.id → s.active = false) ∧
      (process_request authStart userFive "10.0.0.2" true).2 =
        MwOutcome.redirectLogin) :=
  ⟨middleware_ip_mismatch_deactivates authStart userFive "10.0.0.2" false
      sessOld (by decide) (by decide) (by decide) (by decide),
   middleware_ip_mismatch_deactivates authStart userFive "10.0.0.2" true
      sessOld (by decide) (by decide) (by decide) (by decide)⟩

end XCTF
